import Mathlib

/-!
Verification of the uHDA controller/path/stream core against its
natural-language specification.  The definitions below are shallow
embeddings of the functions in `src/controller.cpp` and `src/uhda.cpp`;
machine integers are modelled as `Nat`/`Int` with explicit reductions
modulo `2 ^ w` where the source relies on fixed-width wrap-around.
-/

set_option maxRecDepth 4096
set_option linter.unreachableTactic false
set_option linter.unusedTactic false

/-- Status codes returned by every fallible operation of the driver
(the `UhdaStatus` taxonomy: SUCCESS, NO_MEMORY, TIMEOUT, UNSUPPORTED). -/
inductive UhdaStatus
  | success
  | noMemory
  | timeout
  | unsupported
deriving DecidableEq

/-- Ring size negotiation performed identically for the CORB and the RIRB in
`UhdaController::resume` (controller.cpp lines 304-346).  The input is the
capability field (`corb_size_reg & corbsize::SZCAP`, with bit 0 meaning 2
entries supported, bit 1 meaning 16, bit 2 meaning 256); the result is the
chosen size code for the SIZE field together with the negotiated entry
count (`corb_size` / `rirb_size`). -/
def negotiate_ring_size (cap : Nat) : Nat × Nat :=
  if cap &&& 0b100 ≠ 0 then (0b10, 256)
  else if cap &&& 0b10 ≠ 0 then (0b01, 16)
  else (0, 2)

/-- Condition under which `resume` stores the size register back: the source
guards the store with `corb_cap != chosen_corb_size << 1`
(controller.cpp lines 320-324 and 342-346). -/
def ring_size_reg_written (cap : Nat) : Bool :=
  cap != (negotiate_ring_size cap).1 <<< 1

/-- Entry counts supported according to the capability field as the
specification reads it: 2 entries are always the fallback, 16 entries are
available when bit 1 is set and 256 entries when bit 2 is set. -/
def supported_ring_sizes (cap : Nat) : List Nat :=
  2 :: ((if cap &&& 0b10 ≠ 0 then [16] else []) ++
        (if cap &&& 0b100 ≠ 0 then [256] else []))

/-- One polling loop of `UhdaController::wait_for_verb` (controller.cpp lines
458-466 and 468-476): starting at iteration `i` with `fuel` iterations left
before the `5 * 2000` ceiling, the loop reads the write pointer (`wp i` is the
value observed by the poll at iteration `i`) and stops when it equals `index`;
`none` models the `UHDA_STATUS_TIMEOUT` return.  The loop body of the source
contains no call to `uhda_kernel_delay`. -/
def wp_poll (wp : Nat → Nat) (index : Nat) : Nat → Nat → Option Nat
  | _, 0 => none
  | i, fuel + 1 => if wp i = index then some i else wp_poll wp index (i + 1) fuel

/-- `UhdaController::wait_for_verb` (controller.cpp lines 457-480): poll the
CORB write pointer until it equals `index`, then the RIRB write pointer, then
read the response descriptor `rirb[index]`.  The middle component of the
result counts the invocations of the delay primitive `uhda_kernel_delay`
performed by the function, of which the source contains none. -/
def wait_for_verb (corbwp rirbwp : Nat → Nat) (rirb : Nat → Nat) (index : Nat) :
    UhdaStatus × Nat × Option Nat :=
  match wp_poll corbwp index 0 (5 * 2000) with
  | none => (.timeout, 0, none)
  | some _ =>
    match wp_poll rirbwp index 0 (5 * 2000) with
    | none => (.timeout, 0, none)
    | some _ => (.success, 0, some (rirb index))

/-- The controller reset polling loop of `UhdaController::suspend`
(controller.cpp lines 250-260; `resume` at lines 285-295 has the same shape):
the same `5 * 2000` iteration ceiling, but every failed poll is followed by
`uhda_kernel_delay(200)`.  The result pairs the iteration at which the
condition was observed (or `none` on timeout) with the number of delay calls
performed. -/
def reset_poll (done : Nat → Bool) : Nat → Nat → Nat → Option Nat × Nat
  | _, 0, delays => (none, delays)
  | i, fuel + 1, delays =>
    if done i then (some i, delays) else reset_poll done (i + 1) fuel (delays + 1)

/-- `uhda_paths_usable_simultaneously` (uhda.cpp lines 123-153).  A widget is
identified by the value its pointer is compared by in the source; a path is
its widget list, index 0 being the pin.  The quadruple loop of the source,
with its early `return false`, is rendered as nested `List.all`; the widget
index loops start at 1 exactly as in the source. -/
def uhda_paths_usable_simultaneously (paths : List (List Nat)) (same_stream : Bool) :
    Bool :=
  (List.range paths.length).all fun i =>
    let path := paths.getD i []
    (List.range' 1 (path.length - 1)).all fun widget_i =>
      (List.range paths.length).all fun j =>
        j == i ||
          (let other_path := paths.getD j []
           (List.range' 1 (other_path.length - 1)).all fun other_widget_i =>
             if path.getD (widget_i - 1) 0 = other_path.getD (other_widget_i - 1) 0 then
               same_stream
             else !(path.getD widget_i 0 == other_path.getD other_widget_i 0))

/-- The scan `uhda_paths_usable_simultaneously` performs for one ordered pair
of paths: the `widget_i` loop over `A` against the `other_widget_i` loop over
`B` (uhda.cpp lines 136-147). -/
def pair_scan (A B : List Nat) (same_stream : Bool) : Bool :=
  (List.range' 1 (A.length - 1)).all fun widget_i =>
    (List.range' 1 (B.length - 1)).all fun other_widget_i =>
      if A.getD (widget_i - 1) 0 = B.getD (other_widget_i - 1) 0 then
        same_stream
      else !(A.getD widget_i 0 == B.getD other_widget_i 0)

/-- The amplifier step computed, cached in `path->gain` and programmed into
the gain field of the amp verb by `uhda_path_set_volume` (uhda.cpp lines
391-416).  `out_amp_caps` is the converter widget's capability word
(`max_value = out_amp_caps & 0x7F` is a `uint8_t`); `volume` is the C `int`
argument.  The product `one_percentage * volume` is assigned to a `uint32_t`,
modelled by the reduction modulo `2 ^ 32` of the signed product. -/
def uhda_path_set_volume_step (out_amp_caps : Nat) (volume : Int) : Nat :=
  let volume : Int := if volume > 100 then 100 else volume
  let max_value : Nat := out_amp_caps % 128
  let one_percentage : Nat := max_value / 100
  let one_percentage : Nat := if one_percentage = 0 then 1 else one_percentage
  let value : Nat := (((one_percentage : Int) * volume) % (2 ^ 32)).toNat
  if value > max_value ∨ volume = 100 then max_value else value

/-- The connection-selector scan of `uhda_path_setup` (uhda.cpp lines
267-285): walk the raw connection list accumulating `index`, where an entry
with bit 7 set is a range whose inclusive start bound is the immediately
preceding raw entry and whose end is its low 7 bits.  The previous raw entry
is carried as an `Option`; a range entry in first position makes the source
read `connections[j - 1]` out of bounds (undefined), rendered here as the
default 0 and never exercised by the theorems. -/
def connection_scan_go (prevNid : Nat) : Nat → Option Nat → List Nat → Nat
  | index, _, [] => index
  | index, prev, connection :: rest =>
    if connection &&& (1 <<< 7) ≠ 0 then
      let start := prev.getD 0
      let stop := connection &&& 0x7F
      if prevNid ≥ start ∧ prevNid ≤ stop then index + (prevNid - start)
      else connection_scan_go prevNid (index + (stop - start)) (some connection) rest
    else
      if prevNid = connection then index
      else connection_scan_go prevNid (index + 1) (some connection) rest

/-- Selector index issued to the set-connection verb for a previous widget
with node id `prevNid` (uhda.cpp lines 267-285). -/
def connection_scan_index (connections : List Nat) (prevNid : Nat) : Nat :=
  connection_scan_go prevNid 0 none connections

/-- Modelled from the spec (the claim's reading of the connection-list
encoding, matching the HD-Audio convention): the flattened connection list,
in which an explicit entry occupies one position and a range entry — bit 7
set, paired with the immediately preceding entry `s` as its inclusive start
bound — extends that start entry by the node ids `s + 1 … end`, so that every
covered node id occupies exactly one position. -/
def flattened_connections : Option Nat → List Nat → List Nat
  | _, [] => []
  | prev, connection :: rest =>
    if connection &&& (1 <<< 7) ≠ 0 then
      let start := prev.getD 0
      let stop := connection &&& 0x7F
      ((List.range (stop - start)).map fun k => start + 1 + k) ++
        flattened_connections (some connection) rest
    else
      connection :: flattened_connections (some connection) rest

/-- Widget kinds distinguished by `uhda_path_setup` (pin complex, audio
mixer, audio output converter, anything else). -/
inductive WidgetType
  | pinComplex
  | audioMixer
  | audioOut
  | otherType
deriving DecidableEq

/-- The widget fields read by `uhda_path_setup`: node id, type tag, raw
upstream connection list, pin capabilities, output amplifier capabilities. -/
structure Widget where
  nid : Nat
  type : WidgetType
  connections : List Nat
  pin_caps : Nat
  out_amp_caps : Nat
deriving DecidableEq

instance : Inhabited Widget := ⟨⟨0, .otherType, [], 0, 0⟩⟩

/-- Codec verbs issued by `uhda_path_setup`, one constructor per
`codec->set_*` call appearing in the function. -/
inductive Verb
  | setConverterFormat (nid val : Nat)
  | setConverterChannelCount (nid val : Nat)
  | setSelectedConnection (nid index : Nat)
  | setPowerState (nid val : Nat)
  | setEapdEnable (nid val : Nat)
  | setAmpGainMute (nid val : Nat)
  | setPinControl (nid val : Nat)
  | setConverterControl (nid stream channel : Nat)
deriving DecidableEq

/-- The per-widget loop of `uhda_path_setup` (uhda.cpp lines 261-350).
`oracle` gives the status the codec returns for each issued verb; the
function carries the previous widget, the trace of verbs issued so far and
the cached `path->gain`.  Every branch reproduces the source's return
conditions literally — including the mixer and converter amplifier steps,
which return early when the verb status IS `SUCCESS` (uhda.cpp lines 328-330
and 346-348) and fall through to the next widget on failure. -/
def uhda_path_setup_go (oracle : Verb → UhdaStatus) (stream_index : Nat) :
    Option Widget → List Verb → Option Nat → List Widget →
    UhdaStatus × List Verb × Option Nat
  | _, trace, gain, [] => (.success, trace, gain)
  | prev, trace, gain, w :: rest =>
    let selRes : UhdaStatus × List Verb :=
      match prev with
      | some p =>
        if w.connections.length > 1 then
          let v := Verb.setSelectedConnection w.nid
            (connection_scan_index w.connections p.nid)
          (oracle v, trace ++ [v])
        else (.success, trace)
      | none => (.success, trace)
    if selRes.1 ≠ .success then (selRes.1, selRes.2, gain)
    else
      let vp := Verb.setPowerState w.nid 0
      let sp := oracle vp
      let trace2 := selRes.2 ++ [vp]
      if sp ≠ .success then (sp, trace2, gain)
      else
        match w.type with
        | .pinComplex =>
          let eapdRes : UhdaStatus × List Verb :=
            if w.pin_caps &&& (1 <<< 16) ≠ 0 then
              let v := Verb.setEapdEnable w.nid (1 <<< 1)
              (oracle v, trace2 ++ [v])
            else (.success, trace2)
          if eapdRes.1 ≠ .success then (eapdRes.1, eapdRes.2, gain)
          else
            let step := w.out_amp_caps &&& 0x7F
            let va := Verb.setAmpGainMute w.nid
              ((1 <<< 15) ||| (1 <<< 13) ||| (1 <<< 12) ||| step)
            let sa := oracle va
            let trace3 := eapdRes.2 ++ [va]
            if sa ≠ .success then (sa, trace3, gain)
            else
              let vpc := Verb.setPinControl w.nid ((1 <<< 7) ||| (1 <<< 6))
              let spc := oracle vpc
              let trace4 := trace3 ++ [vpc]
              if spc ≠ .success then (spc, trace4, gain)
              else uhda_path_setup_go oracle stream_index (some w) trace4 gain rest
        | .audioMixer =>
          let step := w.out_amp_caps &&& 0x7F
          let va := Verb.setAmpGainMute w.nid
            ((1 <<< 15) ||| (1 <<< 13) ||| (1 <<< 12) ||| step)
          let sa := oracle va
          let trace3 := trace2 ++ [va]
          if sa = .success then (sa, trace3, gain)
          else uhda_path_setup_go oracle stream_index (some w) trace3 gain rest
        | .audioOut =>
          let vc := Verb.setConverterControl w.nid (stream_index + 1) 0
          let sc := oracle vc
          let trace3 := trace2 ++ [vc]
          if sc ≠ .success then (sc, trace3, gain)
          else
            let step := w.out_amp_caps &&& 0x7F
            let va := Verb.setAmpGainMute w.nid
              ((1 <<< 15) ||| (1 <<< 13) ||| (1 <<< 12) ||| (step / 2))
            let gain1 := some (step / 2)
            let sa := oracle va
            let trace4 := trace3 ++ [va]
            if sa = .success then (sa, trace4, gain1)
            else uhda_path_setup_go oracle stream_index (some w) trace4 gain1 rest
        | .otherType => uhda_path_setup_go oracle stream_index (some w) trace2 gain rest

/-- `uhda_path_setup` (uhda.cpp lines 237-353).  The PCM format negotiation
(`pcm_format_from_params`) writes header-defined bit fields outside src/ and
does not influence the control flow under examination, so the converter
format word and its channel field are abstracted as the inputs `fmt` and
`chan`.  The result is the returned status, the trace of verbs issued to the
codec, and the cached `path->gain` (`none` when never assigned). -/
def uhda_path_setup (stream_output : Bool) (stream_index : Nat) (fmt chan : Nat)
    (path : List Widget) (oracle : Verb → UhdaStatus) :
    UhdaStatus × List Verb × Option Nat :=
  if !stream_output then (.unsupported, [], none)
  else
    let output := path.getLastD default
    if output.type ≠ .audioOut then (.unsupported, [], none)
    else
      let v1 := Verb.setConverterFormat output.nid fmt
      let s1 := oracle v1
      if s1 ≠ .success then (s1, [v1], none)
      else
        let v2 := Verb.setConverterChannelCount output.nid chan
        let s2 := oracle v2
        if s2 ≠ .success then (s2, [v1, v2], none)
        else uhda_path_setup_go oracle stream_index none [v1, v2] none path

/-- The all-success path used to evaluate `uhda_path_setup`: a pin complex
feeding an audio mixer feeding the audio-output converter. -/
def c2_path : List Widget :=
  [⟨1, .pinComplex, [], 0, 10⟩, ⟨2, .audioMixer, [1], 0, 20⟩,
   ⟨3, .audioOut, [2], 0, 30⟩]

/-- Result of `uhda_path_setup` on `c2_path` with a codec on which every verb
succeeds. -/
def c2_result : UhdaStatus × List Verb × Option Nat :=
  uhda_path_setup true 0 17 2 c2_path (fun _ => .success)

/-- The per-stream state read and written by `uhda_stream_play` (uhda.cpp
lines 457-485), together with the `output` direction flag consulted by
`uhda_stream_setup` and `uhda_stream_queue_data`.  `run` is the
`sdctl0::RUN` bit of the stream's CTL0 register; `buffer_pages p off` is byte
`off` of hardware buffer page `p`; `ring_buffer off` is byte `off` of the
logical ring buffer; the three position fields are `uint32_t`. -/
structure UhdaStream where
  output : Bool
  run : Bool
  buffer_pages : Nat → Nat → Nat
  ring_buffer : Nat → Nat
  ring_buffer_size : Nat
  ring_buffer_read_pos : Nat
  current_pos : Nat

/-- `uhda_stream_play` (uhda.cpp lines 457-485): on `play = true` with the
run bit clear, copy the four 4096-byte pages at the front of the logical
ring buffer into the hardware buffer pages, shrink `ring_buffer_size` and
advance `ring_buffer_read_pos` by `0x4000` (as `uint32_t` arithmetic), set
`current_pos` to `0x4000` and set the run bit; on `play = true` while
running, do nothing; on `play = false`, clear the run bit when set.  The
function returns `UHDA_STATUS_SUCCESS` unconditionally. -/
def uhda_stream_play (stream : UhdaStream) (play : Bool) : UhdaStream × UhdaStatus :=
  if play then
    if !stream.run then
      ({ stream with
          run := true
          buffer_pages := fun p off =>
            if p < 4 ∧ off < 0x1000 then stream.ring_buffer (p * 0x1000 + off)
            else stream.buffer_pages p off
          ring_buffer_size := (stream.ring_buffer_size + 2 ^ 32 - 0x4000) % 2 ^ 32
          ring_buffer_read_pos := (stream.ring_buffer_read_pos + 0x4000) % 2 ^ 32
          current_pos := 0x4000 }, .success)
    else (stream, .success)
  else
    if stream.run then ({ stream with run := false }, .success)
    else (stream, .success)

/-- Status behaviour of `uhda_stream_setup` (uhda.cpp lines 429-448): an
input stream is rejected with `UHDA_STATUS_UNSUPPORTED`; otherwise the call
ends in `stream->setup(ring_buffer_size)`, whose body lives outside src/ and
is abstracted as the input `setup_result`. -/
def uhda_stream_setup_status (stream : UhdaStream) (setup_result : UhdaStatus) :
    UhdaStatus :=
  if !stream.output then .unsupported else setup_result

/-- Status behaviour of `uhda_stream_queue_data` (uhda.cpp lines 487-494): an
input stream is rejected with `UHDA_STATUS_UNSUPPORTED`; otherwise
`stream->queue_data` (which returns no status) is called and the function
returns `UHDA_STATUS_SUCCESS`. -/
def uhda_stream_queue_data_status (stream : UhdaStream) : UhdaStatus :=
  if !stream.output then .unsupported else .success

/-- Whether codec presence bit `i` of the STATESTS register value is set
(`statests & 1 << i`, controller.cpp line 395). -/
def codec_present (statests i : Nat) : Bool :=
  statests &&& (1 <<< i) != 0

/-- The codec enumeration loop of `UhdaController::resume` (controller.cpp
lines 393-418) over the remaining presence-bit indices, carrying the list of
codec ids pushed into `codecs` and the list of codec ids destroyed and
freed.  `allocOk i` models `uhda_kernel_malloc` succeeding for index `i`,
`pushOk i` models `codecs.push` succeeding, and `initS i` is the status of
`codec->init()`. -/
def enumerate_codecs_go (statests : Nat) (allocOk pushOk : Nat → Bool)
    (initS : Nat → UhdaStatus) :
    List Nat → List Nat → List Nat → UhdaStatus × List Nat × List Nat
  | pushed, freed, [] => (.success, pushed, freed)
  | pushed, freed, i :: rest =>
    if codec_present statests i then
      if allocOk i then
        match initS i with
        | .timeout =>
          enumerate_codecs_go statests allocOk pushOk initS pushed (freed ++ [i]) rest
        | .success =>
          if pushOk i then
            enumerate_codecs_go statests allocOk pushOk initS (pushed ++ [i]) freed rest
          else (.noMemory, pushed, freed)
        | s => (s, pushed, freed ++ [i])
      else (.noMemory, pushed, freed)
    else enumerate_codecs_go statests allocOk pushOk initS pushed freed rest

/-- The full codec enumeration of `UhdaController::resume`: the loop over the
15 presence bits `for (uint32_t i = 0; i < 15; ++i)`. -/
def enumerate_codecs (statests : Nat) (allocOk pushOk : Nat → Bool)
    (initS : Nat → UhdaStatus) : UhdaStatus × List Nat × List Nat :=
  enumerate_codecs_go statests allocOk pushOk initS [] [] (List.range 15)

/-- A presence-bit index is non-fatal to the enumeration when its allocation
succeeds and its codec either initializes successfully (and is pushed) or
times out. -/
def codec_nonfatal (allocOk pushOk : Nat → Bool) (initS : Nat → UhdaStatus)
    (i : Nat) : Prop :=
  allocOk i = true ∧
    (initS i = .timeout ∨ (initS i = .success ∧ pushOk i = true))

instance (allocOk pushOk : Nat → Bool) (initS : Nat → UhdaStatus) (i : Nat) :
    Decidable (codec_nonfatal allocOk pushOk initS i) := by
  unfold codec_nonfatal; infer_instance

/-- Claim C1, counterexample: with capability field `0b111` (all three sizes
supported) the negotiated size code is 2 (256 entries), so a controller whose
CORBSIZE/RIRBSIZE register already holds size code 2 has a current default
that matches the negotiated size — yet the driver still rewrites the size
register, because the store is guarded by the capability field
(`cap != chosen << 1`), not by the register's current size setting. -/
theorem C1_counterexample :
    (negotiate_ring_size 7).1 = 2 ∧ ring_size_reg_written 7 = true := by
  decide

/-- Claim C1, amended: during `resume` the driver selects, for each ring, the
largest entry count whose capability bit is set (the maximum of the supported
sizes), and it writes the size register back exactly when the capability
field differs from the chosen size code shifted left by one — irrespective of
the register's current size setting. -/
theorem C1_ring_size_negotiation (cap : Nat) :
    (negotiate_ring_size cap).2 = (supported_ring_sizes cap).foldr max 0
      ∧ (ring_size_reg_written cap = false ↔ cap = 2 * (negotiate_ring_size cap).1) := by
  constructor
  · by_cases h4 : cap &&& 0b100 = 0 <;> by_cases h2 : cap &&& 0b10 = 0 <;>
      simp [negotiate_ring_size, supported_ring_sizes, h4, h2]
  · by_cases h4 : cap &&& 0b100 = 0 <;> by_cases h2 : cap &&& 0b10 = 0 <;>
      · simp [negotiate_ring_size, ring_size_reg_written, h4, h2, Nat.shiftLeft_eq]
        all_goals omega

/-- The `one_percentage` value of `uhda_path_set_volume` is always 1: the
maximum step fits in 7 bits, so `max_value / 100` is 0 or 1 and the
minimum-1 adjustment turns both into 1. -/
theorem set_volume_one_percentage (caps : Nat) :
    (if (caps % 128) / 100 = 0 then 1 else (caps % 128) / 100) = 1 := by
  split <;> omega

/-- Closed form of the programmed amplifier step for volumes in 0..100. -/
theorem set_volume_step_closed (caps : Nat) (v : Int) (h0 : 0 ≤ v) (h1 : v ≤ 100) :
    uhda_path_set_volume_step caps v =
      if (v.toNat > caps % 128 ∨ v = 100) then caps % 128 else v.toNat := by
  simp only [uhda_path_set_volume_step]
  have hc : (if v > 100 then (100 : Int) else v) = v := if_neg (by omega)
  rw [hc, set_volume_one_percentage]
  simp only [Nat.cast_one, one_mul]
  rw [Int.emod_eq_of_lt h0 (lt_of_le_of_lt h1 (by norm_num))]

/-- Claim C5, counterexample: `uhda_path_set_volume` clamps only the upper
end of its input.  With a converter whose maximum step is 7, volume -1 is
below 0 yet programs step 7 (the maximum, via the unsigned wrap of the
product) while volume 0 programs step 0 — so the input is not clamped to
0..100 and the mapping is not monotonic over all integer inputs. -/
theorem C5_counterexample :
    (-1 : Int) < 0 ∧ uhda_path_set_volume_step 7 (-1) = 7
      ∧ uhda_path_set_volume_step 7 0 = 0 := by
  decide

/-- Claim C5, amended: for inputs in 0..100 the mapping behaves as stated —
volume 0 programs step 0, volume 100 (or anything above, clamped) programs
exactly the maximum step, and the programmed step is monotonic non-decreasing
on 0..100; inputs below 0 are not clamped (they wrap, see the C9 theorem). -/
theorem C5_volume_mapping (caps : Nat) :
    uhda_path_set_volume_step caps 0 = 0
      ∧ uhda_path_set_volume_step caps 100 = caps % 128
      ∧ (∀ v : Int, 100 < v → uhda_path_set_volume_step caps v = caps % 128)
      ∧ (∀ v₁ v₂ : Int, 0 ≤ v₁ → v₁ ≤ v₂ → v₂ ≤ 100 →
          uhda_path_set_volume_step caps v₁ ≤ uhda_path_set_volume_step caps v₂) := by
  refine ⟨?_, ?_, ?_, ?_⟩
  · rw [set_volume_step_closed caps 0 le_rfl (by norm_num)]
    simp
  · rw [set_volume_step_closed caps 100 (by norm_num) le_rfl]
    simp
  · intro v hv
    simp only [uhda_path_set_volume_step]
    have hc : (if v > 100 then (100 : Int) else v) = 100 := if_pos hv
    rw [hc, set_volume_one_percentage]
    simp only [Nat.cast_one, one_mul]
    rw [Int.emod_eq_of_lt (by norm_num) (by norm_num)]
    simp
  · intro v₁ v₂ h0 h12 h2
    rw [set_volume_step_closed caps v₁ h0 (by omega),
      set_volume_step_closed caps v₂ (by omega) h2]
    split_ifs <;> omega

/-- Claim C9: for every negative `int` volume the product
`one_percentage * volume` wraps modulo `2 ^ 32` to a value far above the
7-bit maximum step, so the clamp programs (and caches in `path->gain`)
exactly the converter's maximum amplifier step — negative inputs behave like
volume 100, not like volume 0. -/
theorem C9_negative_volume (caps : Nat) (v : Int) (hlo : -(2 ^ 31) ≤ v)
    (hneg : v < 0) :
    uhda_path_set_volume_step caps v = caps % 128
      ∧ uhda_path_set_volume_step caps v = uhda_path_set_volume_step caps 100 := by
  have hp : (2 : Int) ^ 32 = 4294967296 := by norm_num
  have hlo' : -(2 ^ 31 : Int) = -2147483648 := by norm_num
  have hmain : uhda_path_set_volume_step caps v = caps % 128 := by
    simp only [uhda_path_set_volume_step]
    have hc : (if v > 100 then (100 : Int) else v) = v := if_neg (by omega)
    rw [hc, set_volume_one_percentage]
    simp only [Nat.cast_one, one_mul]
    have hval : v % 2 ^ 32 = v + 4294967296 := by rw [hp]; omega
    rw [hval, if_pos]
    left
    omega
  have h100 : uhda_path_set_volume_step caps 100 = caps % 128 := by
    rw [set_volume_step_closed caps 100 (by norm_num) le_rfl]
    simp
  exact ⟨hmain, hmain.trans h100.symm⟩

/-- Witness for the C9 theorem at a concrete negative volume. -/
theorem C9_witness :
    uhda_path_set_volume_step 7 (-5) = 7 % 128
      ∧ uhda_path_set_volume_step 7 (-5) = uhda_path_set_volume_step 7 100 :=
  C9_negative_volume 7 (-5) (by norm_num) (by norm_num)

/-- Witness for the C5 theorem at concrete inputs. -/
theorem C5_witness :
    uhda_path_set_volume_step 127 0 = 0
      ∧ uhda_path_set_volume_step 127 100 = 127
      ∧ uhda_path_set_volume_step 127 101 = 127
      ∧ uhda_path_set_volume_step 127 30 ≤ uhda_path_set_volume_step 127 60 := by
  refine ⟨(C5_volume_mapping 127).1, ?_, ?_, ?_⟩
  · exact (C5_volume_mapping 127).2.1
  · exact (C5_volume_mapping 127).2.2.1 101 (by norm_num)
  · exact (C5_volume_mapping 127).2.2.2 30 60 (by norm_num) (by norm_num) (by norm_num)

/-- Claim C6: the selector scan evaluated at its failing input.  With raw
connection list `[2, 0x85]` (the explicit start entry 2 followed by a range
entry up to 5, flattening to node ids `[2, 3, 4, 5]`), previous widget node
id 3 sits at zero-based flattened position 1, but the scan issues selector
index 2: having already counted the start entry with `++index`, it adds the
full `nid - start` again.  Consequently in the list `[2, 0x83, 9]`
(flattening to `[2, 3, 9]`) the distinct connections 3 and 9 both receive
selector index 2, which no position-based indexing can produce. -/
theorem C6_code_evaluation :
    connection_scan_index [2, 133] 3 = 2
      ∧ (flattened_connections none [2, 133]).indexOf 3 = 1
      ∧ flattened_connections none [2, 133] = [2, 3, 4, 5]
      ∧ connection_scan_index [2, 131, 9] 3 = 2
      ∧ connection_scan_index [2, 131, 9] 9 = 2
      ∧ flattened_connections none [2, 131, 9] = [2, 3, 9] := by
  decide

/-- Claim C2: `uhda_path_setup` evaluated at its failing input — the
pin→mixer→converter path `c2_path` with a codec on which every verb returns
SUCCESS.  The function returns SUCCESS immediately after the mixer's
amplifier-gain verb (the branch returns when the status IS success), so the
trace stops at the mixer: the converter is never powered on and never bound
to the stream with `set_converter_control`, contradicting the documented
intent that a path whose every verb succeeds is configured end to end. -/
theorem C2_code_evaluation :
    c2_result.1 = .success
      ∧ c2_result.2.1 =
          [Verb.setConverterFormat 3 17, Verb.setConverterChannelCount 3 2,
           Verb.setPowerState 1 0, Verb.setAmpGainMute 1 45066,
           Verb.setPinControl 1 192, Verb.setPowerState 2 0,
           Verb.setAmpGainMute 2 45076]
      ∧ Verb.setConverterControl 3 1 0 ∉ c2_result.2.1
      ∧ Verb.setPowerState 3 0 ∉ c2_result.2.1 := by
  decide

/-- Polling with a write pointer that never shows `index` within the window
exhausts the whole fuel and returns `none`. -/
theorem wp_poll_eq_none (wp : Nat → Nat) (index : Nat) :
    ∀ fuel i, (∀ j, i ≤ j → j < i + fuel → wp j ≠ index) →
      wp_poll wp index i fuel = none := by
  intro fuel
  induction fuel with
  | zero => intro i _; rfl
  | succ n ih =>
    intro i h
    unfold wp_poll
    rw [if_neg (h i le_rfl (by omega))]
    exact ih (i + 1) fun j hj1 hj2 => h j (by omega) (by omega)

/-- A polling loop succeeds exactly when the write pointer shows `index` at
some iteration inside the fuel window. -/
theorem wp_poll_isSome_iff (wp : Nat → Nat) (index : Nat) :
    ∀ fuel i, (wp_poll wp index i fuel).isSome = true ↔
      ∃ j, i ≤ j ∧ j < i + fuel ∧ wp j = index := by
  intro fuel
  induction fuel with
  | zero =>
    intro i
    simp only [wp_poll, Option.isSome_none]
    constructor
    · intro h; cases h
    · rintro ⟨j, hj1, hj2, _⟩; omega
  | succ n ih =>
    intro i
    unfold wp_poll
    by_cases h : wp i = index
    · rw [if_pos h]
      simp only [Option.isSome_some, true_iff]
      exact ⟨i, le_rfl, by omega, h⟩
    · rw [if_neg h, ih (i + 1)]
      constructor
      · rintro ⟨j, hj1, hj2, hj3⟩
        exact ⟨j, by omega, by omega, hj3⟩
      · rintro ⟨j, hj1, hj2, hj3⟩
        refine ⟨j, ?_, by omega, hj3⟩
        rcases Nat.eq_or_lt_of_le hj1 with rfl | h2
        · exact absurd hj3 h
        · omega

/-- The reset poll with a condition that never becomes true runs out its fuel
and performs one delay call per iteration. -/
theorem reset_poll_never (done : Nat → Bool) (h : ∀ j, done j = false) :
    ∀ fuel i d, reset_poll done i fuel d = (none, d + fuel) := by
  intro fuel
  induction fuel with
  | zero => intro i d; rfl
  | succ n ih =>
    intro i d
    unfold reset_poll
    rw [h i]
    simp only [Bool.false_eq_true, if_false]
    rw [ih]
    exact congrArg _ (by omega)

/-- Claim C3, counterexample: waiting for index 1 while the CORB write
pointer reads 0 forever makes `wait_for_verb` time out after the full
`5 * 2000`-iteration ceiling while calling the delay primitive 0 times — not
`5 * 2000` times of 200 µs each.  The per-iteration 200 µs delay policy
belongs to the controller reset wait loops (`reset_poll`, which on the same
never-satisfied condition performs `5 * 2000` delay calls), not to
`wait_for_verb`, which busy-polls back to back. -/
theorem C3_counterexample :
    wait_for_verb (fun _ => 0) (fun _ => 0) (fun _ => 0) 1 = (.timeout, 0, none)
      ∧ (0 : Nat) ≠ 5 * 2000
      ∧ reset_poll (fun _ => false) 0 (5 * 2000) 0 = (none, 5 * 2000) := by
  refine ⟨?_, by norm_num, ?_⟩
  · unfold wait_for_verb
    rw [wp_poll_eq_none (fun _ => 0) 1 (5 * 2000) 0 (fun j _ _ => by simp)]
  · rw [reset_poll_never (fun _ => false) (fun j => rfl) (5 * 2000) 0 0]

/-- Claim C3, amended: `wait_for_verb` busy-polls the CORB write pointer and
then the RIRB write pointer against `index`; whenever a pointer fails to
show `index` throughout the `5 * 2000`-iteration window the function returns
TIMEOUT after exactly that fixed ceiling — not before and not indefinitely —
and when both pointers reach `index` inside the window it returns SUCCESS
with the response descriptor stored at ring slot `index`.  The function
performs no delay calls between polls (the 200 µs step belongs to the reset
wait loops). -/
theorem C3_wait_for_verb (corbwp rirbwp rirb : Nat → Nat) (index : Nat) :
    ((∀ j, j < 5 * 2000 → corbwp j ≠ index) →
        wait_for_verb corbwp rirbwp rirb index = (.timeout, 0, none))
      ∧ ((∀ j, j < 5 * 2000 → rirbwp j ≠ index) →
          wait_for_verb corbwp rirbwp rirb index = (.timeout, 0, none))
      ∧ ((∃ i, i < 5 * 2000 ∧ corbwp i = index) →
          (∃ j, j < 5 * 2000 ∧ rirbwp j = index) →
          wait_for_verb corbwp rirbwp rirb index = (.success, 0, some (rirb index))) := by
  refine ⟨?_, ?_, ?_⟩
  · intro h
    unfold wait_for_verb
    rw [wp_poll_eq_none corbwp index (5 * 2000) 0 (fun j _ hj => h j (by omega))]
  · intro h
    unfold wait_for_verb
    cases hc : wp_poll corbwp index 0 (5 * 2000) with
    | none => rfl
    | some k =>
      rw [wp_poll_eq_none rirbwp index (5 * 2000) 0 (fun j _ hj => h j (by omega))]
  · rintro ⟨i, hi, hci⟩ ⟨j, hj, hrj⟩
    have h1 : (wp_poll corbwp index 0 (5 * 2000)).isSome = true :=
      (wp_poll_isSome_iff corbwp index (5 * 2000) 0).2 ⟨i, by omega, by omega, hci⟩
    have h2 : (wp_poll rirbwp index 0 (5 * 2000)).isSome = true :=
      (wp_poll_isSome_iff rirbwp index (5 * 2000) 0).2 ⟨j, by omega, by omega, hrj⟩
    obtain ⟨k, hk⟩ := Option.isSome_iff_exists.mp h1
    obtain ⟨l, hl⟩ := Option.isSome_iff_exists.mp h2
    unfold wait_for_verb
    rw [hk, hl]

/-- Witness for the C3 theorem: a pointer stuck at 0 times out waiting for
index 3; pointers already showing index 5 succeed immediately and return the
response at slot 5. -/
theorem C3_witness :
    wait_for_verb (fun _ => 0) (fun _ => 0) (fun k => k + 7) 3 = (.timeout, 0, none)
      ∧ wait_for_verb (fun _ => 5) (fun _ => 5) (fun k => k + 7) 5 =
          (.success, 0, some 12) := by
  constructor
  · exact (C3_wait_for_verb _ _ _ 3).1 (fun j _ => by simp)
  · exact (C3_wait_for_verb _ _ _ 5).2.2 ⟨0, by norm_num, rfl⟩ ⟨0, by norm_num, rfl⟩

/-- An in-range `getD` access yields an element of the list. -/
theorem getD_mem_of_lt (l : List Nat) (n : Nat) (h : n < l.length) (d : Nat) :
    l.getD n d ∈ l := by
  induction l generalizing n with
  | nil => simp at h
  | cons a t ih =>
    cases n with
    | zero => simp
    | succ m =>
      simp only [List.getD_cons_succ]
      exact List.mem_cons_of_mem a (ih m (by simpa using h))

/-- On a two-path array the quadruple loop of
`uhda_paths_usable_simultaneously` amounts to scanning the ordered pair
(A, B) and the ordered pair (B, A). -/
theorem usable_pair_eq (A B : List Nat) (ss : Bool) :
    uhda_paths_usable_simultaneously [A, B] ss
      = (pair_scan A B ss && pair_scan B A ss) := by
  have hr : List.range ([A, B].length) = [0, 1] := rfl
  simp only [uhda_paths_usable_simultaneously, hr, List.all_cons, List.all_nil,
    List.getD_cons_zero, List.getD_cons_succ]
  simp [pair_scan]

/-- Two widget-disjoint paths pass the ordered pair scan for any flag. -/
theorem pair_scan_disjoint (A B : List Nat) (ss : Bool)
    (h : ∀ x ∈ A, x ∉ B) : pair_scan A B ss = true := by
  unfold pair_scan
  rw [List.all_eq_true]
  intro wi hwi
  rw [List.all_eq_true]
  intro owi howi
  have hwi' := List.mem_range'_1.mp hwi
  have howi' := List.mem_range'_1.mp howi
  have hAlen : wi < A.length := by omega
  have hBlen : owi < B.length := by omega
  have hpA : A.getD (wi - 1) 0 ∈ A := getD_mem_of_lt A (wi - 1) (by omega) 0
  have hpB : B.getD (owi - 1) 0 ∈ B := getD_mem_of_lt B (owi - 1) (by omega) 0
  have hwA : A.getD wi 0 ∈ A := getD_mem_of_lt A wi hAlen 0
  have hwB : B.getD owi 0 ∈ B := getD_mem_of_lt B owi hBlen 0
  have hne : A.getD (wi - 1) 0 ≠ B.getD (owi - 1) 0 :=
    fun hEq => h _ hpA (hEq ▸ hpB)
  rw [if_neg hne]
  simp only [Bool.not_eq_true', beq_eq_false_iff_ne]
  exact fun hEq => h _ hwA (hEq ▸ hwB)

/-- A single failing quadruple makes the ordered pair scan reject. -/
theorem pair_scan_eq_false (A B : List Nat) (ss : Bool) (wi owi : Nat)
    (hwi1 : 1 ≤ wi) (hwiA : wi < A.length) (howi1 : 1 ≤ owi) (howiB : owi < B.length)
    (hbody : (if A.getD (wi - 1) 0 = B.getD (owi - 1) 0 then ss
              else !(A.getD wi 0 == B.getD owi 0)) = false) :
    pair_scan A B ss = false := by
  cases hps : pair_scan A B ss with
  | false => rfl
  | true =>
    exfalso
    unfold pair_scan at hps
    rw [List.all_eq_true] at hps
    have h1 := hps wi (List.mem_range'_1.mpr ⟨hwi1, by omega⟩)
    rw [List.all_eq_true] at h1
    have h2 := h1 owi (List.mem_range'_1.mpr ⟨howi1, by omega⟩)
    simp only [hbody] at h2
    exact Bool.noConfusion h2

/-- Claim C4, counterexample: the paths `[0, 2, 3]` and `[1, 2, 3]` share
widget 3 (at index 2 of both) with the identical predecessor 2, so by the
claim they would be usable together exactly when `same_stream` is true — yet
with `same_stream = true` the code still rejects them, because the shared
predecessor 2 is itself a shared intermediate widget whose own predecessors
(the two distinct pins 0 and 1) differ. -/
theorem C4_counterexample :
    ([0, 2, 3] : List Nat).getD 2 0 = ([1, 2, 3] : List Nat).getD 2 0
      ∧ ([0, 2, 3] : List Nat).getD 1 0 = ([1, 2, 3] : List Nat).getD 1 0
      ∧ uhda_paths_usable_simultaneously [[0, 2, 3], [1, 2, 3]] true = false := by
  decide

/-- Claim C4, amended: with pin endpoints (index 0) excluded as compared
widgets, two widget-disjoint paths are usable together for both values of
`same_stream`; two paths containing the same non-pin widget with different
predecessors are never usable together; and two paths with identical
predecessor for a shared non-pin widget are usable together *only* when
`same_stream` is true (when `same_stream` is false they are always
rejected; with `same_stream` true they may still be rejected by another
shared widget whose predecessors differ, as the counterexample shows). -/
theorem C4_paths_usable (A B : List Nat) :
    ((∀ x ∈ A, x ∉ B) → ∀ ss,
        uhda_paths_usable_simultaneously [A, B] ss = true)
      ∧ (∀ wi owi, 1 ≤ wi → wi < A.length → 1 ≤ owi → owi < B.length →
          A.getD wi 0 = B.getD owi 0 → A.getD (wi - 1) 0 ≠ B.getD (owi - 1) 0 →
          ∀ ss, uhda_paths_usable_simultaneously [A, B] ss = false)
      ∧ (∀ wi owi, 1 ≤ wi → wi < A.length → 1 ≤ owi → owi < B.length →
          A.getD wi 0 = B.getD owi 0 → A.getD (wi - 1) 0 = B.getD (owi - 1) 0 →
          uhda_paths_usable_simultaneously [A, B] false = false) := by
  refine ⟨?_, ?_, ?_⟩
  · intro h ss
    rw [usable_pair_eq, pair_scan_disjoint A B ss h,
      pair_scan_disjoint B A ss (fun x hxB hxA => h x hxA hxB)]
    rfl
  · intro wi owi hwi1 hwiA howi1 howiB hshared hpred ss
    rw [usable_pair_eq,
      pair_scan_eq_false A B ss wi owi hwi1 hwiA howi1 howiB
        (by rw [if_neg hpred, hshared]; simp)]
    rfl
  · intro wi owi hwi1 hwiA howi1 howiB hshared hpred
    rw [usable_pair_eq,
      pair_scan_eq_false A B false wi owi hwi1 hwiA howi1 howiB
        (by rw [if_pos hpred])]
    rfl

/-- Witness for the C4 theorem: disjoint paths are accepted under both
flags; a shared widget with different predecessors is rejected even with
`same_stream` true; a shared widget with identical predecessor is rejected
with `same_stream` false. -/
theorem C4_witness :
    uhda_paths_usable_simultaneously [[0, 1], [2, 3]] true = true
      ∧ uhda_paths_usable_simultaneously [[0, 1], [2, 3]] false = true
      ∧ uhda_paths_usable_simultaneously [[0, 2, 3], [1, 4, 3]] true = false
      ∧ uhda_paths_usable_simultaneously [[0, 5, 7], [0, 5, 9]] false = false := by
  refine ⟨(C4_paths_usable _ _).1 ?_ true, (C4_paths_usable _ _).1 ?_ false,
    (C4_paths_usable _ _).2.1 2 2 ?_ ?_ ?_ ?_ ?_ ?_ true,
    (C4_paths_usable _ _).2.2 1 1 ?_ ?_ ?_ ?_ ?_ ?_⟩ <;> decide

/-- Claim C7: `uhda_stream_play true` on a stream whose run bit is clear
copies exactly the four 4096-byte pages at the front of the logical ring
buffer into the four hardware buffer pages, shrinks the logical remaining
size by 16 KiB, advances the read offset by 16 KiB, sets `current_pos` to
16 KiB and sets the run bit (returning SUCCESS); called while the run bit is
set it changes nothing; `uhda_stream_play false` clears the run bit when set
and moves no data. -/
theorem C7_stream_play (s : UhdaStream) :
    (s.run = false →
        (uhda_stream_play s true).2 = .success
        ∧ (uhda_stream_play s true).1.run = true
        ∧ (∀ p off, p < 4 → off < 0x1000 →
            (uhda_stream_play s true).1.buffer_pages p off =
              s.ring_buffer (p * 0x1000 + off))
        ∧ (0x4000 ≤ s.ring_buffer_size → s.ring_buffer_size < 2 ^ 32 →
            (uhda_stream_play s true).1.ring_buffer_size =
              s.ring_buffer_size - 0x4000)
        ∧ (s.ring_buffer_read_pos + 0x4000 < 2 ^ 32 →
            (uhda_stream_play s true).1.ring_buffer_read_pos =
              s.ring_buffer_read_pos + 0x4000)
        ∧ (uhda_stream_play s true).1.current_pos = 0x4000
        ∧ (uhda_stream_play s true).1.ring_buffer = s.ring_buffer)
      ∧ (s.run = true → uhda_stream_play s true = (s, .success))
      ∧ uhda_stream_play s false = ({ s with run := false }, .success) := by
  have h32 : (2 : Nat) ^ 32 = 4294967296 := by norm_num
  refine ⟨?_, ?_, ?_⟩
  · intro hrun
    have hplay : uhda_stream_play s true =
        ({ s with
            run := true
            buffer_pages := fun p off =>
              if p < 4 ∧ off < 0x1000 then s.ring_buffer (p * 0x1000 + off)
              else s.buffer_pages p off
            ring_buffer_size := (s.ring_buffer_size + 2 ^ 32 - 0x4000) % 2 ^ 32
            ring_buffer_read_pos := (s.ring_buffer_read_pos + 0x4000) % 2 ^ 32
            current_pos := 0x4000 }, .success) := by
      simp [uhda_stream_play, hrun]
    rw [hplay]
    refine ⟨rfl, rfl, ?_, ?_, ?_, rfl, rfl⟩
    · intro p off hp hoff
      simp [hp, hoff]
    · intro hge hlt
      show (s.ring_buffer_size + 2 ^ 32 - 0x4000) % 2 ^ 32 =
        s.ring_buffer_size - 0x4000
      rw [h32] at *
      omega
    · intro hlt
      show (s.ring_buffer_read_pos + 0x4000) % 2 ^ 32 =
        s.ring_buffer_read_pos + 0x4000
      rw [h32] at *
      omega
  · intro hrun
    simp [uhda_stream_play, hrun]
  · rcases s with ⟨o, r, bp, rb, sz, rp, cp⟩
    cases r <;> simp [uhda_stream_play]

/-- A concrete output stream, not running, with a 32 KiB logical ring. -/
def c7_stream : UhdaStream :=
  ⟨true, false, fun _ _ => 0, fun off => off % 251, 0x8000, 0, 0⟩

/-- Witness for the C7 theorem on the concrete stream `c7_stream`. -/
theorem C7_witness :
    (uhda_stream_play c7_stream true).2 = .success
      ∧ (uhda_stream_play c7_stream true).1.run = true
      ∧ (uhda_stream_play c7_stream true).1.buffer_pages 2 5 =
          c7_stream.ring_buffer (2 * 0x1000 + 5)
      ∧ (uhda_stream_play c7_stream true).1.ring_buffer_size = 0x8000 - 0x4000
      ∧ (uhda_stream_play c7_stream true).1.ring_buffer_read_pos = 0 + 0x4000
      ∧ (uhda_stream_play c7_stream true).1.current_pos = 0x4000
      ∧ uhda_stream_play { c7_stream with run := true } true =
          ({ c7_stream with run := true }, .success)
      ∧ uhda_stream_play c7_stream false =
          ({ c7_stream with run := false }, .success) := by
  have h := C7_stream_play c7_stream
  have h1 := h.1 rfl
  exact ⟨h1.1, h1.2.1, h1.2.2.1 2 5 (by norm_num) (by norm_num),
    h1.2.2.2.1 (by decide) (by decide),
    h1.2.2.2.2.1 (by decide), h1.2.2.2.2.2.1,
    (C7_stream_play { c7_stream with run := true }).2.1 rfl,
    h.2.2⟩

/-- Claim C10: `uhda_stream_play` returns SUCCESS for every stream and both
values of the play flag — it performs no direction check — whereas
`uhda_stream_setup` and `uhda_stream_queue_data` reject a non-output stream
with UNSUPPORTED. -/
theorem C10_play_no_direction_check (s : UhdaStream) (pl : Bool)
    (setup_result : UhdaStatus) :
    (uhda_stream_play s pl).2 = .success
      ∧ (s.output = false →
          uhda_stream_setup_status s setup_result = .unsupported
          ∧ uhda_stream_queue_data_status s = .unsupported) := by
  constructor
  · rcases s with ⟨o, r, bp, rb, sz, rp, cp⟩
    cases pl <;> cases r <;> simp [uhda_stream_play]
  · intro ho
    constructor <;> simp [uhda_stream_setup_status, uhda_stream_queue_data_status, ho]

/-- Witness for the C10 theorem: an input stream (`output := false`) is
accepted by play but rejected by setup and by queue_data. -/
theorem C10_witness :
    (uhda_stream_play { c7_stream with output := false } true).2 = .success
      ∧ uhda_stream_setup_status { c7_stream with output := false } .success =
          .unsupported
      ∧ uhda_stream_queue_data_status { c7_stream with output := false } =
          .unsupported := by
  have h := C10_play_no_direction_check { c7_stream with output := false } true .success
  exact ⟨h.1, (h.2 rfl).1, (h.2 rfl).2⟩

/-- Stepping the enumeration over a non-fatal head only moves ids into the
accumulators. -/
theorem enumerate_codecs_go_step (statests : Nat) (allocOk pushOk : Nat → Bool)
    (initS : Nat → UhdaStatus) (j : Nat) (idxs pushed freed : List Nat)
    (hj : codec_present statests j = true → codec_nonfatal allocOk pushOk initS j) :
    ∃ pushed2 freed2,
      enumerate_codecs_go statests allocOk pushOk initS pushed freed (j :: idxs) =
        enumerate_codecs_go statests allocOk pushOk initS pushed2 freed2 idxs := by
  by_cases hp : codec_present statests j = true
  · obtain ⟨ha, hcase⟩ := hj hp
    rcases hcase with ht | ⟨hs, hpu⟩
    · exact ⟨pushed, freed ++ [j], by simp [enumerate_codecs_go, hp, ha, ht]⟩
    · exact ⟨pushed ++ [j], freed, by simp [enumerate_codecs_go, hp, ha, hs, hpu]⟩
  · exact ⟨pushed, freed, by simp [enumerate_codecs_go, hp]⟩

/-- Enumeration over a list of indices that are all non-fatal succeeds,
pushing exactly the successfully initialized present codecs and freeing
exactly the timed-out present codecs. -/
theorem enumerate_codecs_go_nonfatal (statests : Nat) (allocOk pushOk : Nat → Bool)
    (initS : Nat → UhdaStatus) :
    ∀ idxs pushed freed,
      (∀ i ∈ idxs, codec_present statests i = true →
        codec_nonfatal allocOk pushOk initS i) →
      enumerate_codecs_go statests allocOk pushOk initS pushed freed idxs =
        (.success,
         pushed ++ idxs.filter
           (fun i => codec_present statests i && (initS i == .success)),
         freed ++ idxs.filter
           (fun i => codec_present statests i && (initS i == .timeout))) := by
  intro idxs
  induction idxs with
  | nil => intro pushed freed _; simp [enumerate_codecs_go]
  | cons i rest ih =>
    intro pushed freed h
    have hrest : ∀ j ∈ rest, codec_present statests j = true →
        codec_nonfatal allocOk pushOk initS j :=
      fun j hj => h j (List.mem_cons_of_mem i hj)
    by_cases hp : codec_present statests i = true
    · obtain ⟨ha, hcase⟩ := h i (List.mem_cons_self i rest) hp
      rcases hcase with ht | ⟨hs, hpu⟩
      · simp only [enumerate_codecs_go, hp, ha, ht, if_true]
        rw [ih pushed (freed ++ [i]) hrest]
        simp [List.filter_cons, hp, ht]
      · simp only [enumerate_codecs_go, hp, ha, hs, hpu, if_true]
        rw [ih (pushed ++ [i]) freed hrest]
        simp [List.filter_cons, hp, hs]
    · simp only [enumerate_codecs_go, hp]
      rw [ih pushed freed hrest]
      simp [List.filter_cons, hp]

/-- Enumeration hitting a present index whose allocation fails returns
NO_MEMORY; hitting a present index whose init status is neither SUCCESS nor
TIMEOUT returns that status. -/
theorem enumerate_codecs_go_fatal (statests : Nat) (allocOk pushOk : Nat → Bool)
    (initS : Nat → UhdaStatus) (k : Nat) (hk : codec_present statests k = true) :
    ∀ pre pushed freed rest,
      (∀ i ∈ pre, codec_present statests i = true →
        codec_nonfatal allocOk pushOk initS i) →
      ((allocOk k = false →
          (enumerate_codecs_go statests allocOk pushOk initS pushed freed
            (pre ++ k :: rest)).1 = .noMemory)
        ∧ (allocOk k = true → initS k ≠ .success → initS k ≠ .timeout →
            (enumerate_codecs_go statests allocOk pushOk initS pushed freed
              (pre ++ k :: rest)).1 = initS k)) := by
  intro pre
  induction pre with
  | nil =>
    intro pushed freed rest _
    constructor
    · intro hna
      simp [enumerate_codecs_go, hk, hna]
    · intro ha hns hnt
      cases hi : initS k with
      | success => exact absurd hi hns
      | timeout => exact absurd hi hnt
      | noMemory => simp [enumerate_codecs_go, hk, ha, hi]
      | unsupported => simp [enumerate_codecs_go, hk, ha, hi]
  | cons j pre2 ih =>
    intro pushed freed rest h
    have hj : codec_present statests j = true →
        codec_nonfatal allocOk pushOk initS j :=
      fun hpj => h j (List.mem_cons_self j pre2) hpj
    have hpre2 : ∀ i ∈ pre2, codec_present statests i = true →
        codec_nonfatal allocOk pushOk initS i :=
      fun i hi => h i (List.mem_cons_of_mem j hi)
    obtain ⟨pushed2, freed2, hstep⟩ :=
      enumerate_codecs_go_step statests allocOk pushOk initS j
        (pre2 ++ k :: rest) pushed freed hj
    rw [List.cons_append, hstep]
    exact ih pushed2 freed2 rest hpre2

/-- Claim C8: in the codec enumeration over the 15-bit presence bitmap, a
present codec whose `init()` returns TIMEOUT is destroyed and freed and
enumeration continues, with resume ending in SUCCESS as long as every
present codec is non-fatal (the pushed list collects the successful ids and
the freed list the timed-out ids); a present codec whose allocation fails
makes the enumeration return NO_MEMORY, and any init status other than
SUCCESS and TIMEOUT is returned as the result, provided the present indices
before it were non-fatal. -/
theorem C8_codec_enumeration (statests : Nat) (allocOk pushOk : Nat → Bool)
    (initS : Nat → UhdaStatus) :
    ((∀ i, i < 15 → codec_present statests i = true →
        codec_nonfatal allocOk pushOk initS i) →
      enumerate_codecs statests allocOk pushOk initS =
        (.success,
         (List.range 15).filter
           (fun i => codec_present statests i && (initS i == .success)),
         (List.range 15).filter
           (fun i => codec_present statests i && (initS i == .timeout))))
      ∧ (∀ pre k rest, List.range 15 = pre ++ k :: rest →
          (∀ i ∈ pre, codec_present statests i = true →
            codec_nonfatal allocOk pushOk initS i) →
          codec_present statests k = true →
          ((allocOk k = false →
              (enumerate_codecs statests allocOk pushOk initS).1 = .noMemory)
            ∧ (allocOk k = true → initS k ≠ .success → initS k ≠ .timeout →
                (enumerate_codecs statests allocOk pushOk initS).1 = initS k))) := by
  constructor
  · intro h
    unfold enumerate_codecs
    rw [enumerate_codecs_go_nonfatal statests allocOk pushOk initS (List.range 15)
      [] [] (fun i hi => h i (List.mem_range.mp hi))]
    simp
  · intro pre k rest hsplit hpre hk
    unfold enumerate_codecs
    rw [hsplit]
    exact enumerate_codecs_go_fatal statests allocOk pushOk initS k hk pre [] [] rest hpre

/-- Witness for the C8 theorem: with presence bits 0..2 set, codec 1 timing
out and codecs 0 and 2 initializing, enumeration succeeds, pushes 0 and 2
and frees 1; with presence bits 0..1 set, codec 0 timing out and codec 1
returning UNSUPPORTED, enumeration returns UNSUPPORTED. -/
theorem C8_witness :
    enumerate_codecs 7 (fun _ => true) (fun _ => true)
        (fun i => if i = 1 then .timeout else .success) =
      (.success, [0, 2], [1])
      ∧ (enumerate_codecs 3 (fun _ => true) (fun _ => true)
          (fun i => if i = 0 then .timeout else .unsupported)).1 = .unsupported := by
  constructor
  · have h := (C8_codec_enumeration 7 (fun _ => true) (fun _ => true)
      (fun i => if i = 1 then .timeout else .success)).1 (by decide)
    rw [h]
    decide
  · have h := (C8_codec_enumeration 3 (fun _ => true) (fun _ => true)
      (fun i => if i = 0 then .timeout else .unsupported)).2
      [0] 1 [2, 3, 4, 5, 6, 7, 8, 9, 10, 11, 12, 13, 14] (by decide) (by decide)
      (by decide)
    exact h.2 rfl (by decide) (by decide)
